import Mathlib

/-!
Shallow embedding of the `ble_advert_data` integration
(custom_components/ble_advert_data): the rule-driven decoder in
`sensor.py` (`_parse_rule_value`, `_extract_rule_bytes`, `_get_raw_bytes`,
`_parse_int`), the connectivity liveness tracker in `binary_sensor.py`
(`_update_connectivity`, `_async_check_timeout`), and the platform list in
`__init__.py`.

Python dynamic values are modelled by `PyVal`; Python exceptions by
`Except PyErr`.  Byte strings are `List Nat` (each element < 256 at use
sites), timestamps and `float` scale factors are `Rat` (the claims under
study depend only on exact arithmetic), and dicts are association lists
with first-match lookup.
-/

/-- A Python runtime value, restricted to the shapes that can appear in a
rule record or a snapshot field: `None`, `bool`, `int`, `float`, `str`. -/
inductive PyVal where
  | none : PyVal
  | bool : Bool → PyVal
  | int : Int → PyVal
  | float : Rat → PyVal
  | str : String → PyVal
  deriving DecidableEq, Repr

/-- The Python exceptions the decode path can raise. -/
inductive PyErr where
  | valueError : PyErr
  | typeError : PyErr
  | attributeError : PyErr
  deriving DecidableEq, Repr

/-- Python truthiness (`bool(v)` / `if v:`). -/
def pyTruthy : PyVal → Bool
  | .none => false
  | .bool b => b
  | .int n => n ≠ 0
  | .float q => q ≠ 0
  | .str s => s ≠ ""

/-- Python `v == s` for a string constant `s`: only a `str` can compare
equal to a string. -/
def pyEqStr : PyVal → String → Bool
  | .str t, s => t = s
  | _, _ => false

/-- Characters Python's `int()` / `float()` strip from both ends. -/
def is_py_space (c : Char) : Bool :=
  c = ' ' ∨ c = '\t' ∨ c = '\n' ∨ c = '\r' ∨ c = '\x0b' ∨ c = '\x0c'

/-- Strip leading and trailing whitespace from a character list. -/
def strip_ws (cs : List Char) : List Char :=
  ((cs.dropWhile is_py_space).reverse.dropWhile is_py_space).reverse

/-- Split an optional single leading sign, returning the sign factor. -/
def split_sign (cs : List Char) : Int × List Char :=
  match cs with
  | [] => (1, [])
  | c :: r =>
    if c = '+' then (1, r)
    else if c = '-' then (-1, r)
    else (1, c :: r)

/-- Decimal digit value. -/
def dec_digit (c : Char) : Option Nat :=
  if '0' ≤ c ∧ c ≤ '9' then some (c.toNat - 48) else none

/-- Hexadecimal digit value (either case). -/
def hex_digit_val (c : Char) : Option Nat :=
  if '0' ≤ c ∧ c ≤ '9' then some (c.toNat - 48)
  else if 'a' ≤ c ∧ c ≤ 'f' then some (c.toNat - 87)
  else if 'A' ≤ c ∧ c ≤ 'F' then some (c.toNat - 55)
  else none

/-- Octal digit value. -/
def oct_digit (c : Char) : Option Nat :=
  if '0' ≤ c ∧ c ≤ '7' then some (c.toNat - 48) else none

/-- Binary digit value. -/
def bin_digit (c : Char) : Option Nat :=
  if c = '0' ∨ c = '1' then some (c.toNat - 48) else none

/-- Tail of a digit-group check: an underscore must be followed by a
digit, every other character must be a digit. -/
def digits_ok_tail (dv : Char → Option Nat) : List Char → Bool
  | [] => true
  | c :: r =>
    if c = '_' then
      match r with
      | [] => false
      | d :: _ => (dv d).isSome && digits_ok_tail dv r
    else (dv c).isSome && digits_ok_tail dv r

/-- Python digit-group validity: non-empty, starts with a digit, each
underscore sits between two digits. -/
def digits_ok (dv : Char → Option Nat) : List Char → Bool
  | [] => false
  | c :: rest => (dv c).isSome && digits_ok_tail dv rest

/-- Accumulate the value of a digit group, skipping underscores. -/
def digits_value (base : Nat) (dv : Char → Option Nat) : List Char → Nat → Nat
  | [], acc => acc
  | c :: r, acc =>
    if c = '_' then digits_value base dv r acc
    else digits_value base dv r (acc * base + ((dv c).getD 0))

/-- Parse a validated digit group in the given base. -/
def parse_digit_group (base : Nat) (dv : Char → Option Nat) (cs : List Char) :
    Option Nat :=
  if digits_ok dv cs then some (digits_value base dv cs 0) else none

/-- Digit group appearing after a `0x`/`0o`/`0b` prefix: one leading
underscore is additionally allowed (`0x_ff`). -/
def parse_prefixed_group (base : Nat) (dv : Char → Option Nat)
    (cs : List Char) : Option Nat :=
  match cs with
  | [] => parse_digit_group base dv []
  | c :: rest =>
    if c = '_' then parse_digit_group base dv rest
    else parse_digit_group base dv (c :: rest)

/-- Python `int(s)` (base 10) on the character list of `s`. -/
def int_of_chars_dec (cs : List Char) : Option Int :=
  let cs := strip_ws cs
  let (sgn, r) := split_sign cs
  match parse_digit_group 10 dec_digit r with
  | some n => some (sgn * (n : Int))
  | none => none

/-- Python `int(s, 0)` on the character list of `s`: literal with optional
base prefix; a decimal literal may not have leading zeros unless its value
is zero. -/
def int_of_chars_base0 (cs : List Char) : Option Int :=
  let cs2 := strip_ws cs
  let sr := split_sign cs2
  match sr.2 with
  | [] => Option.none
  | c :: rest =>
    if c = '0' then
      match rest with
      | [] => some 0
      | x :: rest2 =>
        if x = 'x' ∨ x = 'X' then
          match parse_prefixed_group 16 hex_digit_val rest2 with
          | some n => some (sr.1 * (n : Int))
          | Option.none => Option.none
        else if x = 'o' ∨ x = 'O' then
          match parse_prefixed_group 8 oct_digit rest2 with
          | some n => some (sr.1 * (n : Int))
          | Option.none => Option.none
        else if x = 'b' ∨ x = 'B' then
          match parse_prefixed_group 2 bin_digit rest2 with
          | some n => some (sr.1 * (n : Int))
          | Option.none => Option.none
        else
          if digits_ok dec_digit (c :: rest)
              && rest.all (fun ch => ch = '0' ∨ ch = '_') then
            some 0
          else Option.none
    else
      match parse_digit_group 10 dec_digit (c :: rest) with
      | some n => some (sr.1 * (n : Int))
      | Option.none => Option.none

/-- Truncation toward zero, as Python `int(float)`. -/
def rat_trunc (q : Rat) : Int :=
  if q < 0 then -((-q).floor) else q.floor

/-- Python `int(v)`: `TypeError` on `None`, truncation on `float`,
`ValueError` on a non-numeric string. -/
def pyToInt : PyVal → Except PyErr Int
  | .none => .error .typeError
  | .bool b => .ok (if b then 1 else 0)
  | .int n => .ok n
  | .float q => .ok (rat_trunc q)
  | .str s =>
    match int_of_chars_dec s.data with
    | some n => .ok n
    | none => .error .valueError

/-- Python `float(s)` string form: sign, digits with optional fractional
part, optional exponent.  (`inf`/`nan` have no rational counterpart and
are out of the model's scope.) -/
def float_of_chars (cs : List Char) : Option Rat :=
  let cs := strip_ws cs
  let (sgn, r) := split_sign cs
  let (ip, rest) := r.span (fun c => c ≠ '.' ∧ c ≠ 'e' ∧ c ≠ 'E')
  match rest with
  | [] =>
    match parse_digit_group 10 dec_digit ip with
    | some n => some ((sgn : Rat) * (n : Rat))
    | none => none
  | '.' :: rest2 =>
    let (fp, rest3) := rest2.span (fun c => c ≠ 'e' ∧ c ≠ 'E')
    let mantissa : Option Rat :=
      match ip, fp with
      | [], [] => none
      | [], _ =>
        match parse_digit_group 10 dec_digit fp with
        | some f => some ((f : Rat) / ((10 : Rat) ^ fp.length))
        | none => none
      | _, [] =>
        match parse_digit_group 10 dec_digit ip with
        | some n => some ((n : Rat))
        | none => none
      | _, _ =>
        match parse_digit_group 10 dec_digit ip, parse_digit_group 10 dec_digit fp with
        | some n, some f => some ((n : Rat) + (f : Rat) / ((10 : Rat) ^ fp.length))
        | _, _ => none
    match mantissa, rest3 with
    | some m, [] => some ((sgn : Rat) * m)
    | some m, _ :: ecs =>
      let (esgn, eds) := split_sign ecs
      match parse_digit_group 10 dec_digit eds with
      | some e =>
        some ((sgn : Rat) * m *
          (if esgn = 1 then ((10 : Rat) ^ e) else ((10 : Rat) ^ e)⁻¹))
      | none => none
    | none, _ => none
  | _ :: ecs =>
    let (esgn, eds) := split_sign ecs
    match parse_digit_group 10 dec_digit ip, parse_digit_group 10 dec_digit eds with
    | some n, some e =>
      some ((sgn : Rat) * (n : Rat) *
        (if esgn = 1 then ((10 : Rat) ^ e) else ((10 : Rat) ^ e)⁻¹))
    | _, _ => none

/-- Python `float(v)`. -/
def pyToFloat : PyVal → Except PyErr Rat
  | .none => .error .typeError
  | .bool b => .ok (if b then 1 else 0)
  | .int n => .ok (n : Rat)
  | .float q => .ok q
  | .str s =>
    match float_of_chars s.data with
    | some q => .ok q
    | none => .error .valueError

/-- A raw advertisement object: duck-typed `data` / `raw_data` attributes,
each absent or a byte string. -/
structure Advertisement where
  data : Option (List Nat) := Option.none
  raw_data : Option (List Nat) := Option.none
  deriving DecidableEq, Repr

/-- The slice of `BluetoothServiceInfoBleak` the decode path reads:
`manufacturer_data` (int company id → bytes), `service_data`
(UUID string → bytes), and the optional advertisement object. -/
structure ServiceInfo where
  manufacturer_data : List (Int × List Nat) := []
  service_data : List (String × List Nat) := []
  advertisement : Option Advertisement := Option.none
  deriving DecidableEq, Repr

/-- First-match association-list lookup (Python `dict.get`). -/
def find_val {α β : Type} [DecidableEq α] : List (α × β) → α → Option β
  | [], _ => Option.none
  | (k, v) :: r, key => if k = key then some v else find_val r key

/-- A rule record (`dict[str, Any]`): each field is absent (`none`) or a
present Python value (which may itself be `PyVal.none`). -/
structure Rule where
  source_type : Option PyVal := Option.none
  source_key : Option PyVal := Option.none
  offset : Option PyVal := Option.none
  length : Option PyVal := Option.none
  endian : Option PyVal := Option.none
  signed : Option PyVal := Option.none
  scale : Option PyVal := Option.none
  deriving DecidableEq, Repr

/-- `_parse_int` in sensor.py: `int(value, 0)` with only `ValueError`
caught — a non-string argument raises `TypeError`, which propagates. -/
def parse_int_py (v : PyVal) : Except PyErr (Option Int)
  := match v with
  | .str s => .ok (int_of_chars_base0 s.data)
  | _ => .error .typeError

/-- Python `s.lower()` on the ASCII range. -/
def py_lower (s : String) : String := s.map Char.toLower

/-- `_get_raw_bytes` in sensor.py: `getattr(advertisement, "data", None)
or getattr(advertisement, "raw_data", None)`, kept when it is a byte
string. -/
def get_raw_bytes (si : ServiceInfo) : Option (List Nat) :=
  match si.advertisement with
  | Option.none => Option.none
  | some adv =>
    match adv.data with
    | some l => if l ≠ [] then some l else adv.raw_data
    | Option.none => adv.raw_data

/-- `_extract_rule_bytes` in sensor.py.  A truthy non-string `source_key`
in the service branch reaches `source_key.lower()` and raises
`AttributeError`; in the manufacturer branch `_parse_int` raises
`TypeError`. -/
def extract_rule_bytes (si : ServiceInfo) (rule : Rule) :
    Except PyErr (Option (List Nat)) :=
  let source_type := rule.source_type.getD .none
  let source_key := rule.source_key.getD .none
  if pyEqStr source_type "manufacturer_data" then
    if ¬ pyTruthy source_key then .ok Option.none
    else
      match parse_int_py source_key with
      | .error e => .error e
      | .ok Option.none => .ok Option.none
      | .ok (some key) => .ok (find_val si.manufacturer_data key)
  else if pyEqStr source_type "service_data" then
    if ¬ pyTruthy source_key then .ok Option.none
    else
      match source_key with
      | .str s =>
        if (find_val si.service_data s).isSome then
          .ok (find_val si.service_data s)
        else
          .ok (find_val si.service_data (py_lower s))
      | _ => .error .attributeError
  else if pyEqStr source_type "raw" then .ok (get_raw_bytes si)
  else .ok Option.none

/-- Big-endian value of a byte string (`int.from_bytes` core). -/
def bytes_be_nat (bs : List Nat) : Nat := bs.foldl (fun a b => a * 256 + b) 0

/-- Python `int.from_bytes(bs, byteorder, signed)`. -/
def int_from_bytes (bs : List Nat) (little signed : Bool) : Int :=
  let u : Nat := bytes_be_nat (if little then bs.reverse else bs)
  if signed && decide (2 ^ (8 * bs.length - 1) ≤ u) then
    (u : Int) - 2 ^ (8 * bs.length)
  else (u : Int)

/-- Lowercase hex digit character. -/
def hex_char (n : Nat) : Char :=
  if n < 10 then Char.ofNat (48 + n) else Char.ofNat (87 + n)

/-- Python `bytes.hex()`: two lowercase hex digits per byte. -/
def bytes_hex (bs : List Nat) : String :=
  String.mk (bs.foldr (fun b acc => hex_char (b / 16 % 16) :: hex_char (b % 16) :: acc) [])

/-- The decode stage of `_parse_rule_value` (sensor.py lines 235-256),
applied to the bytes `_extract_rule_bytes` returned. -/
def decode_rule_bytes (data : Option (List Nat)) (rule : Rule) :
    Except PyErr (Option Rat × Option String) :=
  match data with
  | Option.none => .ok (Option.none, Option.none)
  | some bs =>
    if bs = [] then .ok (Option.none, Option.none)
    else
      match pyToInt (rule.offset.getD (.int 0)) with
      | .error e => .error e
      | .ok offset =>
        match pyToInt (rule.length.getD (.int 0)) with
        | .error e => .error e
        | .ok length =>
          if length ≤ 0 ∨ offset < 0 then .ok (Option.none, Option.none)
          else if (bs.length : Int) < offset + length then .ok (Option.none, Option.none)
          else
            let chunk := (bs.drop offset.toNat).take length.toNat
            if chunk = [] then .ok (Option.none, Option.none)
            else
              let endian := rule.endian.getD (.str "big")
              let signed := pyTruthy (rule.signed.getD (.bool false))
              let little := pyEqStr endian "little"
              let value : Int := int_from_bytes chunk little signed
              match pyToFloat (rule.scale.getD (.float 1)) with
              | .error e => .error e
              | .ok scale => .ok (some ((value : Rat) * scale), some (bytes_hex chunk))

/-- `_parse_rule_value` in sensor.py: extraction followed by decode. -/
def parse_rule_value (si : ServiceInfo) (rule : Rule) :
    Except PyErr (Option Rat × Option String) :=
  match extract_rule_bytes si rule with
  | .error e => .error e
  | .ok data => decode_rule_bytes data rule

/-- State of `BleAdvertConnectivitySensor`: `_last_seen` and
`_attr_is_on`. -/
structure LivenessState where
  last_seen : Option Rat
  is_online : Bool
  deriving DecidableEq, Repr

/-- Initial state (binary_sensor.py `__init__`): offline, never seen. -/
def liveness_init : LivenessState := ⟨Option.none, false⟩

/-- `_update_connectivity(timestamp)`: record the observation and go
online, whatever the prior state. -/
def observe (t : Rat) (_s : LivenessState) : LivenessState := ⟨some t, true⟩

/-- `CONNECTIVITY_TIMEOUT.total_seconds()`. -/
def CONNECTIVITY_TIMEOUT_SECONDS : Rat := 30

/-- `_async_check_timeout(now)`: no-op when never seen; when the device is
overdue and currently online, go offline and write state once.  The
returned flag records whether a state write was emitted. -/
def check_timeout (now : Rat) (s : LivenessState) : LivenessState × Bool :=
  match s.last_seen with
  | Option.none => (s, false)
  | some ls =>
    if CONNECTIVITY_TIMEOUT_SECONDS < now - ls then
      if s.is_online then ({ s with is_online := false }, true) else (s, false)
    else (s, false)

/-- Run a burst of consecutive timeout checks, counting emitted offline
state writes. -/
def run_checks (times : List Rat) (s : LivenessState) : LivenessState × Nat :=
  match times with
  | [] => (s, 0)
  | t :: ts =>
    let r := check_timeout t s
    let rest := run_checks ts r.1
    (rest.1, (if r.2 then 1 else 0) + rest.2)

/-- The Home Assistant platforms this integration can name. -/
inductive Platform where
  | sensor : Platform
  | binary_sensor : Platform
  | other : String → Platform
  deriving DecidableEq, Repr

/-- `PLATFORMS` in `__init__.py`: the list `async_setup_entry` forwards
the config entry to. -/
def PLATFORMS : List Platform := [Platform.sensor]

/-! ### Liveness tracker lemmas -/

/-- A timeout check on a state that is already offline changes nothing and
emits nothing. -/
theorem check_timeout_offline (now : Rat) (s : LivenessState)
    (h : s.is_online = false) : check_timeout now s = (s, false) := by
  cases hls : s.last_seen with
  | none => simp [check_timeout, hls]
  | some ls =>
    by_cases hlt : CONNECTIVITY_TIMEOUT_SECONDS < now - ls
    · simp [check_timeout, hls, hlt, h]
    · simp [check_timeout, hls, hlt]

/-- A burst of timeout checks from an offline state emits nothing. -/
theorem run_checks_offline (times : List Rat) (s : LivenessState)
    (h : s.is_online = false) : run_checks times s = (s, 0) := by
  induction times with
  | nil => rfl
  | cons t ts ih =>
    simp [run_checks, check_timeout_offline t s h, ih]

/-- Whenever a timeout check emits, the resulting state is offline. -/
theorem check_timeout_emit_offline (now : Rat) (s : LivenessState)
    (h : (check_timeout now s).2 = true) :
    (check_timeout now s).1.is_online = false := by
  cases hls : s.last_seen with
  | none => simp [check_timeout, hls] at h
  | some ls =>
    by_cases hlt : CONNECTIVITY_TIMEOUT_SECONDS < now - ls
    · by_cases hon : s.is_online
      · simp [check_timeout, hls, hlt, hon]
      · simp [check_timeout, hls, hlt, hon] at h
    · simp [check_timeout, hls, hlt] at h

/-- Claim C6: the tracker starts Offline with `last_seen` unset;
`observe t` sets `last_seen = t` and the state to Online regardless of
prior state; a timeout check with the fixed 30-second threshold keeps an
online state Online when `now - last_seen ≤ 30` and moves it Offline when
`now - last_seen > 30`; the trace observe(100); check_timeout(125);
check_timeout(131); observe(200) passes through Online (last_seen 100),
Online, Offline, Online (last_seen 200). -/
theorem C6_liveness_trace :
    liveness_init = ⟨Option.none, false⟩ ∧
    (∀ t s, observe t s = ⟨some t, true⟩) ∧
    (∀ now ls, now - ls ≤ 30 →
      (check_timeout now ⟨some ls, true⟩).1 = ⟨some ls, true⟩) ∧
    (∀ now ls, 30 < now - ls →
      (check_timeout now ⟨some ls, true⟩).1 = ⟨some ls, false⟩) ∧
    observe 100 liveness_init = ⟨some 100, true⟩ ∧
    (check_timeout 125 (observe 100 liveness_init)).1 = ⟨some 100, true⟩ ∧
    (check_timeout 131 (check_timeout 125 (observe 100 liveness_init)).1).1
      = ⟨some 100, false⟩ ∧
    observe 200
        (check_timeout 131 (check_timeout 125 (observe 100 liveness_init)).1).1
      = ⟨some 200, true⟩ := by
  have hkeep : ∀ now ls : Rat, now - ls ≤ 30 →
      (check_timeout now ⟨some ls, true⟩).1 = ⟨some ls, true⟩ := by
    intro now ls h
    have hnlt : ¬ CONNECTIVITY_TIMEOUT_SECONDS < now - ls := by
      simpa [CONNECTIVITY_TIMEOUT_SECONDS] using not_lt.mpr h
    simp [check_timeout, hnlt]
  have hdrop : ∀ now ls : Rat, 30 < now - ls →
      (check_timeout now ⟨some ls, true⟩).1 = ⟨some ls, false⟩ := by
    intro now ls h
    have hlt : CONNECTIVITY_TIMEOUT_SECONDS < now - ls := by
      simpa [CONNECTIVITY_TIMEOUT_SECONDS] using h
    simp [check_timeout, hlt]
  have e1 : observe 100 liveness_init = (⟨some 100, true⟩ : LivenessState) := rfl
  have e2 : (check_timeout 125 (observe 100 liveness_init)).1
      = (⟨some 100, true⟩ : LivenessState) := by
    rw [e1]
    exact hkeep 125 100 (by norm_num)
  have e3 : (check_timeout 131 (check_timeout 125 (observe 100 liveness_init)).1).1
      = (⟨some 100, false⟩ : LivenessState) := by
    rw [e2]
    exact hdrop 131 100 (by norm_num)
  have e4 : observe 200
      (check_timeout 131 (check_timeout 125 (observe 100 liveness_init)).1).1
      = (⟨some 200, true⟩ : LivenessState) := rfl
  exact ⟨rfl, fun t s => rfl, hkeep, hdrop, e1, e2, e3, e4⟩

/-- Witness for C6 at concrete inputs. -/
theorem C6_liveness_trace_witness :
    (check_timeout 125 ⟨some 100, true⟩).1 = ⟨some 100, true⟩ ∧
    (check_timeout 131 ⟨some 100, true⟩).1 = ⟨some 100, false⟩ :=
  ⟨C6_liveness_trace.2.2.1 125 100 (by norm_num),
   C6_liveness_trace.2.2.2.1 131 100 (by norm_num)⟩

/-- Claim C7: a timeout check is a no-op when `last_seen` is unset, and a
burst of consecutive timeout checks with no intervening observation emits
at most one offline state write. -/
theorem C7_timeout_burst_once :
    (∀ now s, s.last_seen = Option.none → check_timeout now s = (s, false)) ∧
    (∀ times s, (run_checks times s).2 ≤ 1) := by
  constructor
  · intro now s h
    simp [check_timeout, h]
  · intro times s
    induction times generalizing s with
    | nil => simp [run_checks]
    | cons t ts ih =>
      by_cases he : (check_timeout t s).2 = true
      · have hoff := check_timeout_emit_offline t s he
        simp [run_checks, he, run_checks_offline ts _ hoff]
      · simp [run_checks, he]
        exact ih _

/-- Witness for C7 at concrete inputs. -/
theorem C7_timeout_burst_once_witness :
    check_timeout 500 ⟨Option.none, true⟩ = (⟨Option.none, true⟩, false) ∧
    (run_checks [131, 140, 150] ⟨some 100, true⟩).2 ≤ 1 :=
  ⟨C7_timeout_burst_once.1 500 ⟨Option.none, true⟩ rfl,
   C7_timeout_burst_once.2 [131, 140, 150] ⟨some 100, true⟩⟩

/-- Claim C10: a timeout check never changes `last_seen` — only the
online flag can move — while `observe` is what writes `last_seen`. -/
theorem C10_check_timeout_frame :
    (∀ now s, (check_timeout now s).1.last_seen = s.last_seen) ∧
    (∀ t s, (observe t s).last_seen = some t) := by
  constructor
  · intro now s
    cases hls : s.last_seen with
    | none => simp [check_timeout, hls]
    | some ls =>
      by_cases hlt : CONNECTIVITY_TIMEOUT_SECONDS < now - ls
      · by_cases hon : s.is_online
        · simp [check_timeout, hls, hlt, hon]
        · simp [check_timeout, hls, hlt, hon]
      · simp [check_timeout, hls, hlt]
  · intro t s
    rfl

/-- Claim C9 (divergence): `PLATFORMS`, the list the integration's entry
setup forwards to, names only the sensor platform — the binary
(connectivity) sensor platform is absent, so its setup entry is never
invoked. -/
theorem C9_binary_sensor_platform_missing :
    Platform.binary_sensor ∉ PLATFORMS ∧ PLATFORMS = [Platform.sensor] := by
  constructor
  · intro h
    simp [PLATFORMS] at h
  · rfl

/-! ### Decoder lemmas -/

/-- A rule whose decode-relevant fields carry the types the data model
assigns them: integer offset and length, any endian and signed values,
float scale. -/
def typed_rule (o l : Int) (endian signed : PyVal) (scale : Rat) : Rule :=
  { offset := some (.int o), length := some (.int l),
    endian := some endian, signed := some signed, scale := some (.float scale) }

/-- In-range decode: with `0 ≤ o`, `1 ≤ l` and `o + l ≤ |src|` the decode
stage returns the scaled integer of the matched chunk and its hex. -/
theorem decode_in_range (src : List Nat) (o l : Int) (endian signed : PyVal)
    (scale : Rat) (ho : 0 ≤ o) (hl : 1 ≤ l) (hb : o + l ≤ (src.length : Int)) :
    decode_rule_bytes (some src) (typed_rule o l endian signed scale)
      = .ok (some ((int_from_bytes ((src.drop o.toNat).take l.toNat)
            (pyEqStr endian "little") (pyTruthy signed) : Int) * scale),
          some (bytes_hex ((src.drop o.toNat).take l.toNat))) := by
  have hlen : o.toNat + l.toNat ≤ src.length := by omega
  have hl1 : 1 ≤ l.toNat := by omega
  have hne : src ≠ [] := by
    intro h
    rw [h] at hlen
    simp at hlen
    omega
  have hchunk : (src.drop o.toNat).take l.toNat ≠ [] := by
    intro h
    have hlen2 : ((src.drop o.toNat).take l.toNat).length = 0 := by rw [h]; rfl
    rw [List.length_take, List.length_drop] at hlen2
    omega
  simp only [decode_rule_bytes, typed_rule, Option.getD_some, pyToInt]
  rw [if_neg hne, if_neg (by omega : ¬ (l ≤ 0 ∨ o < 0)),
    if_neg (not_lt.mpr hb), if_neg hchunk]
  simp [pyToFloat]

/-- Out-of-range decode: with `0 ≤ o`, `1 ≤ l` but `o + l > |src|`, the
decode stage is unavailable whatever the endian, sign and scale fields
hold. -/
theorem decode_out_of_range (src : List Nat) (o l : Int) (endian signed : PyVal)
    (scale : Rat) (ho : 0 ≤ o) (hl : 1 ≤ l) (hne : src ≠ [])
    (hb : (src.length : Int) < o + l) :
    decode_rule_bytes (some src) (typed_rule o l endian signed scale)
      = .ok (Option.none, Option.none) := by
  simp only [decode_rule_bytes, typed_rule, Option.getD_some, pyToInt]
  rw [if_neg hne, if_neg (by omega : ¬ (l ≤ 0 ∨ o < 0)), if_pos hb]

/-- Little-endian place value of a byte string: byte `i` weighs `256^i`. -/
def le_value : List Nat → Nat
  | [] => 0
  | b :: r => b + 256 * le_value r

/-- Folding big-endian over an appended final byte. -/
theorem bytes_be_nat_append (xs : List Nat) (b : Nat) :
    bytes_be_nat (xs ++ [b]) = bytes_be_nat xs * 256 + b := by
  simp [bytes_be_nat, List.foldl_append]

/-- The big-endian fold of a reversed byte string is the little-endian
place value. -/
theorem bytes_be_nat_reverse (bs : List Nat) :
    bytes_be_nat bs.reverse = le_value bs := by
  induction bs with
  | nil => rfl
  | cons b r ih =>
    rw [List.reverse_cons, bytes_be_nat_append, ih, le_value]
    ring

/-- The big-endian fold is the little-endian place value of the reverse. -/
theorem bytes_be_nat_eq (bs : List Nat) :
    bytes_be_nat bs = le_value bs.reverse := by
  have h := bytes_be_nat_reverse bs.reverse
  simpa using h

/-- A byte string's place value is bounded by `256 ^ length`. -/
theorem le_value_lt (bs : List Nat) (h : ∀ b ∈ bs, b < 256) :
    le_value bs < 256 ^ bs.length := by
  induction bs with
  | nil => simp [le_value]
  | cons b r ih =>
    have hb : b < 256 := h b (by simp)
    have hr : le_value r < 256 ^ r.length := ih (fun x hx => h x (by simp [hx]))
    have h3 : 256 * (le_value r + 1) ≤ 256 * 256 ^ r.length :=
      Nat.mul_le_mul_left _ hr
    have h5 : 256 * 256 ^ r.length = 256 ^ r.length * 256 := Nat.mul_comm _ _
    simp only [le_value, List.length_cons, Nat.pow_succ]
    omega

/-- The big-endian fold of a byte string is below `256 ^ length`. -/
theorem bytes_be_nat_lt (bs : List Nat) (h : ∀ b ∈ bs, b < 256) :
    bytes_be_nat bs < 256 ^ bs.length := by
  rw [bytes_be_nat_eq]
  have := le_value_lt bs.reverse (by simpa using h)
  simpa using this

/-- Unsigned little-endian `int.from_bytes` is the place-value sum. -/
theorem int_from_bytes_unsigned_little (bs : List Nat) :
    int_from_bytes bs true false = (le_value bs : Int) := by
  simp [int_from_bytes, bytes_be_nat_reverse]

/-- Unsigned big-endian `int.from_bytes` is the place-value sum of the
reversed bytes (most-significant byte first). -/
theorem int_from_bytes_unsigned_big (bs : List Nat) :
    int_from_bytes bs false false = (le_value bs.reverse : Int) := by
  simp [int_from_bytes, bytes_be_nat_eq]

/-- Signed `int.from_bytes` is the two's-complement reading: congruent to
the unsigned value modulo `2 ^ (8n)` and lying in
`[-2^(8n-1), 2^(8n-1))`. -/
theorem int_from_bytes_signed_spec (bs : List Nat) (little : Bool)
    (hne : bs ≠ []) (hb : ∀ b ∈ bs, b < 256) :
    int_from_bytes bs little true
        ≡ int_from_bytes bs little false [ZMOD 2 ^ (8 * bs.length)] ∧
    -(2 ^ (8 * bs.length - 1)) ≤ int_from_bytes bs little true ∧
    int_from_bytes bs little true < 2 ^ (8 * bs.length - 1) := by
  have hn1 : 1 ≤ bs.length := List.length_pos.mpr hne
  set n := bs.length with hn
  set u : Nat := bytes_be_nat (if little then bs.reverse else bs) with hu
  have hulht : u < 256 ^ n := by
    cases little with
    | false => simpa [hu] using bytes_be_nat_lt bs hb
    | true =>
      have := bytes_be_nat_lt bs.reverse (by simpa using hb)
      simpa [hu] using this
  have h256 : (256 : Nat) ^ n = 2 ^ (8 * n) := by
    rw [pow_mul]
    norm_num
  have hult : u < 2 ^ (8 * n) := h256 ▸ hulht
  have hsplit : (2 : Int) ^ (8 * n) = 2 ^ (8 * n - 1) * 2 := by
    rw [← pow_succ]
    congr 1
    omega
  have hApos : (0 : Int) < 2 ^ (8 * n - 1) := by positivity
  have hultZ : (u : Int) < 2 ^ (8 * n) := by exact_mod_cast hult
  have hfu : int_from_bytes bs little false = (u : Int) := by
    simp [int_from_bytes, hu, hn]
  by_cases hc : 2 ^ (8 * n - 1) ≤ u
  · have hft : int_from_bytes bs little true = (u : Int) - 2 ^ (8 * n) := by
      simp [int_from_bytes, ← hu, ← hn, hc]
    have hcZ : (2 : Int) ^ (8 * n - 1) ≤ (u : Int) := by exact_mod_cast hc
    refine ⟨?_, ?_, ?_⟩
    · rw [hft, hfu]
      have hdvd : ((2 : Int) ^ (8 * n)) ∣ ((u : Int) - ((u : Int) - 2 ^ (8 * n))) := by
        simp
      exact Int.modEq_iff_dvd.mpr hdvd
    · rw [hft]
      omega
    · rw [hft]
      omega
  · have hft : int_from_bytes bs little true = (u : Int) := by
      simp [int_from_bytes, ← hu, ← hn, hc]
    have hcZ : (u : Int) < (2 : Int) ^ (8 * n - 1) := by
      exact_mod_cast not_le.mp hc
    refine ⟨?_, ?_, ?_⟩
    · rw [hft, hfu]
    · rw [hft]
      omega
    · rw [hft]
      exact hcZ

/-- Claim C1: for every rule with offset ≥ 0 and length ≥ 1 and every
non-empty extracted source byte sequence of length N, decode yields an
available result (non-none value and raw hex) exactly when
offset + length ≤ N, and is unavailable (both components none) whenever
offset + length > N, regardless of endian, signed and scale. -/
theorem C1_decode_availability (src : List Nat) (o l : Int)
    (endian signed : PyVal) (scale : Rat)
    (hne : src ≠ []) (ho : 0 ≤ o) (hl : 1 ≤ l) :
    ((o + l ≤ (src.length : Int)) ↔
      ∃ v h, decode_rule_bytes (some src) (typed_rule o l endian signed scale)
        = .ok (some v, some h)) ∧
    ((src.length : Int) < o + l →
      decode_rule_bytes (some src) (typed_rule o l endian signed scale)
        = .ok (Option.none, Option.none)) := by
  constructor
  · constructor
    · intro hb
      exact ⟨_, _, decode_in_range src o l endian signed scale ho hl hb⟩
    · rintro ⟨v, h, he⟩
      by_contra hnb
      push_neg at hnb
      rw [decode_out_of_range src o l endian signed scale ho hl hne hnb] at he
      simp at he
  · intro hb
    exact decode_out_of_range src o l endian signed scale ho hl hne hb

/-- Witness for C1 at concrete inputs. -/
theorem C1_decode_availability_witness :
    (∃ v h, decode_rule_bytes (some [7, 8]) (typed_rule 0 2 (.str "big") (.bool false) 1)
      = .ok (some v, some h)) ∧
    decode_rule_bytes (some [7, 8]) (typed_rule 1 2 (.str "big") (.bool false) 1)
      = .ok (Option.none, Option.none) :=
  ⟨(C1_decode_availability [7, 8] 0 2 (.str "big") (.bool false) 1
      (by simp) (by decide) (by decide)).1.mp (by decide),
   (C1_decode_availability [7, 8] 1 2 (.str "big") (.bool false) 1
      (by simp) (by decide) (by decide)).2 (by decide)⟩

/-- Claim C2: decode interprets the matched chunk as a length-byte
two's-complement integer, little endian reading the least-significant
byte first and big endian the most-significant byte first, with sign
interpretation applied only when signed is set; in particular bytes
[0x01, 0x00] decode to 1 little endian and 256 big endian unsigned, and
[0xFF] decodes to -1 signed and 255 unsigned. -/
theorem C2_endian_and_sign :
    (∀ bs : List Nat, int_from_bytes bs true false = (le_value bs : Int)) ∧
    (∀ bs : List Nat, int_from_bytes bs false false = (le_value bs.reverse : Int)) ∧
    (∀ (bs : List Nat) (little : Bool), bs ≠ [] → (∀ b ∈ bs, b < 256) →
      int_from_bytes bs little true
          ≡ int_from_bytes bs little false [ZMOD 2 ^ (8 * bs.length)] ∧
      -(2 ^ (8 * bs.length - 1)) ≤ int_from_bytes bs little true ∧
      int_from_bytes bs little true < 2 ^ (8 * bs.length - 1)) ∧
    decode_rule_bytes (some [1, 0]) (typed_rule 0 2 (.str "little") (.bool false) 1)
      = .ok (some 1, some "0100") ∧
    decode_rule_bytes (some [1, 0]) (typed_rule 0 2 (.str "big") (.bool false) 1)
      = .ok (some 256, some "0100") ∧
    decode_rule_bytes (some [255]) (typed_rule 0 1 (.str "big") (.bool true) 1)
      = .ok (some (-1), some "ff") ∧
    decode_rule_bytes (some [255]) (typed_rule 0 1 (.str "big") (.bool false) 1)
      = .ok (some 255, some "ff") := by
  refine ⟨int_from_bytes_unsigned_little, int_from_bytes_unsigned_big,
    int_from_bytes_signed_spec, ?_, ?_, ?_, ?_⟩
  · rw [decode_in_range [1, 0] 0 2 (.str "little") (.bool false) 1
      (by decide) (by decide) (by decide)]
    norm_num [pyEqStr, pyTruthy, int_from_bytes, bytes_be_nat, bytes_hex, hex_char]
    try decide
  · rw [decode_in_range [1, 0] 0 2 (.str "big") (.bool false) 1
      (by decide) (by decide) (by decide)]
    norm_num [pyEqStr, pyTruthy, int_from_bytes, bytes_be_nat, bytes_hex, hex_char]
    try decide
  · rw [decode_in_range [255] 0 1 (.str "big") (.bool true) 1
      (by decide) (by decide) (by decide)]
    norm_num [pyEqStr, pyTruthy, int_from_bytes, bytes_be_nat, bytes_hex, hex_char]
    try decide
  · rw [decode_in_range [255] 0 1 (.str "big") (.bool false) 1
      (by decide) (by decide) (by decide)]
    norm_num [pyEqStr, pyTruthy, int_from_bytes, bytes_be_nat, bytes_hex, hex_char]
    try decide

/-- Witness for C2 at a concrete input. -/
theorem C2_endian_and_sign_witness :
    int_from_bytes [255] false true
        ≡ int_from_bytes [255] false false [ZMOD 2 ^ (8 * [255].length)] ∧
    -(2 ^ (8 * [255].length - 1)) ≤ int_from_bytes [255] false true ∧
    int_from_bytes [255] false true < 2 ^ (8 * [255].length - 1) :=
  C2_endian_and_sign.2.2.1 [255] false (by simp) (by decide)

/-- Claim C8: for every available decode, the raw hex is the lowercase
hex encoding of exactly the matched chunk, and is the same whatever the
signed and scale fields hold; for chunk [0xAB, 0xCD] it is the string
abcd. -/
theorem C8_raw_hex (src : List Nat) (o l : Int) (endian s1 s2 : PyVal)
    (k1 k2 : Rat) (ho : 0 ≤ o) (hl : 1 ≤ l) (hb : o + l ≤ (src.length : Int)) :
    (∃ v1, decode_rule_bytes (some src) (typed_rule o l endian s1 k1)
      = .ok (some v1, some (bytes_hex ((src.drop o.toNat).take l.toNat)))) ∧
    (∃ v2, decode_rule_bytes (some src) (typed_rule o l endian s2 k2)
      = .ok (some v2, some (bytes_hex ((src.drop o.toNat).take l.toNat)))) ∧
    bytes_hex [171, 205] = "abcd" :=
  ⟨⟨_, decode_in_range src o l endian s1 k1 ho hl hb⟩,
   ⟨_, decode_in_range src o l endian s2 k2 ho hl hb⟩, by decide⟩

/-- Witness for C8 at concrete inputs. -/
theorem C8_raw_hex_witness :
    (∃ v1, decode_rule_bytes (some [171, 205])
        (typed_rule 0 2 (.str "big") (.bool true) 2)
      = .ok (some v1, some (bytes_hex (([171, 205].drop (0 : Int).toNat).take (2 : Int).toNat)))) ∧
    (∃ v2, decode_rule_bytes (some [171, 205])
        (typed_rule 0 2 (.str "big") (.bool false) 3)
      = .ok (some v2, some (bytes_hex (([171, 205].drop (0 : Int).toNat).take (2 : Int).toNat)))) ∧
    bytes_hex [171, 205] = "abcd" :=
  C8_raw_hex [171, 205] 0 2 (.str "big") (.bool true) (.bool false) 2 3
    (by decide) (by decide) (by decide)

/-- A rule whose source fields name the service-data source with the
given key. -/
def service_rule (k : PyVal) : Rule :=
  { source_type := some (.str "service_data"), source_key := some k }

/-- A rule whose source fields name the manufacturer-data source with the
given key. -/
def manufacturer_rule (k : PyVal) : Rule :=
  { source_type := some (.str "manufacturer_data"), source_key := some k }

/-- Claim C5: service extraction with a non-empty key looks the exact key
up first; only when the exact key is absent is the fully lowercased key
tried; when that too is absent the result is not found; an empty key is
not found. -/
theorem C5_service_lookup (si : ServiceInfo) (s : String) :
    (s ≠ "" → (find_val si.service_data s).isSome →
      extract_rule_bytes si (service_rule (.str s))
        = .ok (find_val si.service_data s)) ∧
    (s ≠ "" → find_val si.service_data s = Option.none →
      extract_rule_bytes si (service_rule (.str s))
        = .ok (find_val si.service_data (py_lower s))) ∧
    (s ≠ "" → find_val si.service_data s = Option.none →
      find_val si.service_data (py_lower s) = Option.none →
      extract_rule_bytes si (service_rule (.str s)) = .ok Option.none) ∧
    extract_rule_bytes si (service_rule (.str "")) = .ok Option.none := by
  refine ⟨?_, ?_, ?_, ?_⟩
  · intro hs hsome
    simp [extract_rule_bytes, service_rule, pyEqStr, pyTruthy, hs, hsome]
  · intro hs hnone
    simp [extract_rule_bytes, service_rule, pyEqStr, pyTruthy, hs, hnone]
  · intro hs hnone hlow
    simp [extract_rule_bytes, service_rule, pyEqStr, pyTruthy, hs, hnone, hlow]
  · simp [extract_rule_bytes, service_rule, pyEqStr, pyTruthy]

/-- Witness for C5 at concrete inputs. -/
theorem C5_service_lookup_witness :
    extract_rule_bytes
        { service_data := [("AB", [1]), ("ab", [2])] }
        (service_rule (.str "AB"))
      = .ok (find_val [("AB", [1]), ("ab", [2])] "AB") ∧
    extract_rule_bytes
        { service_data := [("AB", [1]), ("ab", [2])] }
        (service_rule (.str "Ab"))
      = .ok (find_val [("AB", [1]), ("ab", [2])] (py_lower "Ab")) :=
  ⟨(C5_service_lookup { service_data := [("AB", [1]), ("ab", [2])] } "AB").1
      (by decide) (by simp [find_val]),
   (C5_service_lookup { service_data := [("AB", [1]), ("ab", [2])] } "Ab").2.1
      (by decide) (by simp [find_val])⟩

/-! ### Integer-literal parsing lemmas -/

/-- `dropWhile` is the identity when no element satisfies the predicate. -/
theorem drop_while_no (p : Char → Bool) (cs : List Char)
    (h : ∀ c ∈ cs, p c = false) : cs.dropWhile p = cs := by
  cases cs with
  | nil => rfl
  | cons c t => simp [List.dropWhile_cons, h c (List.mem_cons_self c t)]

/-- Whitespace stripping is the identity on space-free strings. -/
theorem strip_ws_id (cs : List Char) (h : ∀ c ∈ cs, is_py_space c = false) :
    strip_ws cs = cs := by
  have h1 : cs.dropWhile is_py_space = cs := drop_while_no _ _ h
  have h2 : cs.reverse.dropWhile is_py_space = cs.reverse :=
    drop_while_no _ _ (fun c hc => h c (List.mem_reverse.mp hc))
  unfold strip_ws
  rw [h1, h2, List.reverse_reverse]

/-- A whitespace character is neither a decimal nor a hex digit. -/
theorem space_not_digit (c : Char) (h : is_py_space c = true) :
    dec_digit c = Option.none ∧ hex_digit_val c = Option.none := by
  simp only [is_py_space, decide_eq_true_eq] at h
  rcases h with h|h|h|h|h|h <;> subst h <;> exact ⟨by decide, by decide⟩

/-- A decimal digit is not whitespace. -/
theorem dec_digit_not_space (c : Char) (h : (dec_digit c).isSome) :
    is_py_space c = false := by
  by_contra hc
  rw [Bool.not_eq_false] at hc
  rw [(space_not_digit c hc).1] at h
  simp at h

/-- A hex digit is not whitespace. -/
theorem hex_digit_not_space (c : Char) (h : (hex_digit_val c).isSome) :
    is_py_space c = false := by
  by_contra hc
  rw [Bool.not_eq_false] at hc
  rw [(space_not_digit c hc).2] at h
  simp at h

/-- A decimal digit differs from any non-digit character. -/
theorem dec_digit_ne (c : Char) (h : (dec_digit c).isSome) (x : Char)
    (hx : dec_digit x = Option.none) : c ≠ x := by
  intro he
  rw [he, hx] at h
  simp at h

/-- A hex digit differs from any non-hex-digit character. -/
theorem hex_digit_ne (c : Char) (h : (hex_digit_val c).isSome) (x : Char)
    (hx : hex_digit_val x = Option.none) : c ≠ x := by
  intro he
  rw [he, hx] at h
  simp at h

/-- No sign is split off when the head is not a sign character. -/
theorem split_sign_no (c : Char) (t : List Char) (h1 : c ≠ '+') (h2 : c ≠ '-') :
    split_sign (c :: t) = (1, c :: t) := by
  simp [split_sign, h1, h2]

/-- The digit-group tail check passes on all-digit strings. -/
theorem digits_ok_tail_all (dv : Char → Option Nat) (hdv : dv '_' = Option.none)
    (cs : List Char) (h : ∀ c ∈ cs, (dv c).isSome) :
    digits_ok_tail dv cs = true := by
  induction cs with
  | nil => rfl
  | cons c t ih =>
    have hc : (dv c).isSome := h c (List.mem_cons_self c t)
    have hcn : c ≠ '_' := by
      intro he
      rw [he, hdv] at hc
      simp at hc
    have iht := ih (fun x hx => h x (List.mem_cons_of_mem c hx))
    simp [digits_ok_tail, hcn, hc, iht]

/-- The digit-group check passes on non-empty all-digit strings. -/
theorem digits_ok_all (dv : Char → Option Nat) (hdv : dv '_' = Option.none)
    (cs : List Char) (hne : cs ≠ []) (h : ∀ c ∈ cs, (dv c).isSome) :
    digits_ok dv cs = true := by
  cases cs with
  | nil => exact absurd rfl hne
  | cons c t =>
    have hc := h c (List.mem_cons_self c t)
    have ht := digits_ok_tail_all dv hdv t
      (fun x hx => h x (List.mem_cons_of_mem c hx))
    simp [digits_ok, hc, ht]

/-- Base-10 place value of a digit string. -/
def dec_chars_val (cs : List Char) : Nat :=
  cs.foldl (fun a c => a * 10 + ((dec_digit c).getD 0)) 0

/-- Base-16 place value of a hex-digit string. -/
def hex_chars_val (cs : List Char) : Nat :=
  cs.foldl (fun a c => a * 16 + ((hex_digit_val c).getD 0)) 0

/-- On an underscore-free digit string, `digits_value` is a fold of the
place-value step. -/
theorem digits_value_foldl (base : Nat) (dv : Char → Option Nat)
    (hdv : dv '_' = Option.none) (cs : List Char)
    (h : ∀ c ∈ cs, (dv c).isSome) :
    ∀ acc, digits_value base dv cs acc
      = cs.foldl (fun a c => a * base + ((dv c).getD 0)) acc := by
  induction cs with
  | nil => intro acc; rfl
  | cons c t ih =>
    intro acc
    have hc := h c (List.mem_cons_self c t)
    have hcn : c ≠ '_' := by
      intro he
      rw [he, hdv] at hc
      simp at hc
    simp only [digits_value, if_neg hcn, List.foldl_cons]
    exact ih (fun x hx => h x (List.mem_cons_of_mem c hx)) _

/-- An all-zero digit string has place value zero. -/
theorem dec_chars_val_zeros (cs : List Char) (h : ∀ c ∈ cs, c = '0') :
    dec_chars_val cs = 0 := by
  unfold dec_chars_val
  induction cs with
  | nil => rfl
  | cons c t ih =>
    have hc := h c (List.mem_cons_self c t)
    subst hc
    simpa using ih (fun x hx => h x (List.mem_cons_of_mem _ hx))

/-- `int(s, 0)` on a decimal literal (all digits, no leading zero unless
the string is all zeros) returns its base-10 place value. -/
theorem base0_dec_literal (cs : List Char) (hne : cs ≠ [])
    (hd : ∀ c ∈ cs, (dec_digit c).isSome)
    (hz : ∀ c ∈ cs, cs.head? = some '0' → c = '0') :
    int_of_chars_base0 cs = some ((dec_chars_val cs : Nat) : Int) := by
  obtain ⟨c0, t, rfl⟩ : ∃ c0 t, cs = c0 :: t := by
    cases cs with
    | nil => exact absurd rfl hne
    | cons a b => exact ⟨a, b, rfl⟩
  have hc0d := hd c0 (List.mem_cons_self c0 t)
  have hstrip : strip_ws (c0 :: t) = c0 :: t :=
    strip_ws_id _ (fun c hc => dec_digit_not_space c (hd c hc))
  have hsign : split_sign (c0 :: t) = (1, c0 :: t) :=
    split_sign_no c0 t (dec_digit_ne c0 hc0d '+' (by decide))
      (dec_digit_ne c0 hc0d '-' (by decide))
  by_cases hc0 : c0 = '0'
  · subst hc0
    have hall : ∀ c ∈ ('0' :: t), c = '0' := fun c hc => hz c hc rfl
    cases t with
    | nil => decide
    | cons x r =>
      have hx : x = '0' := hall x (by simp)
      subst hx
      have hok : digits_ok dec_digit ('0' :: '0' :: r) = true :=
        digits_ok_all dec_digit (by decide) _ (by simp) hd
      have hzeros : ('0' :: r).all (fun ch => ch = '0' ∨ ch = '_') = true := by
        rw [List.all_eq_true]
        intro ch hch
        have hch0 := hall ch (List.mem_cons_of_mem _ hch)
        simp [hch0]
      have hval : dec_chars_val ('0' :: '0' :: r) = 0 :=
        dec_chars_val_zeros _ hall
      simp only [int_of_chars_base0, hstrip, hsign]
      simp [hok, hzeros, hval]
      intro x hx hx0
      exact absurd (hall x (List.mem_cons_of_mem _ (List.mem_cons_of_mem _ hx))) hx0
  · have hok : digits_ok dec_digit (c0 :: t) = true :=
      digits_ok_all dec_digit (by decide) _ (by simp) hd
    have hval := digits_value_foldl 10 dec_digit (by decide) (c0 :: t) hd 0
    simp only [int_of_chars_base0, hstrip, hsign]
    simp [hc0, parse_digit_group, hok, hval, dec_chars_val]

/-- `int(s, 0)` on a `0x`-prefixed hex literal returns its base-16 place
value. -/
theorem base0_hex_literal (t : List Char) (hne : t ≠ [])
    (hd : ∀ c ∈ t, (hex_digit_val c).isSome) :
    int_of_chars_base0 ('0' :: 'x' :: t) = some ((hex_chars_val t : Nat) : Int) := by
  have hstrip : strip_ws ('0' :: 'x' :: t) = '0' :: 'x' :: t := by
    apply strip_ws_id
    intro c hc
    simp only [List.mem_cons] at hc
    rcases hc with rfl | rfl | hc
    · decide
    · decide
    · exact hex_digit_not_space c (hd c hc)
  have hsign : split_sign ('0' :: 'x' :: t) = (1, '0' :: 'x' :: t) :=
    split_sign_no _ _ (by decide) (by decide)
  obtain ⟨th, tt, rfl⟩ : ∃ th tt, t = th :: tt := by
    cases t with
    | nil => exact absurd rfl hne
    | cons a b => exact ⟨a, b, rfl⟩
  have hth := hd th (List.mem_cons_self th tt)
  have hthn : th ≠ '_' := hex_digit_ne th hth '_' (by decide)
  have hok : digits_ok hex_digit_val (th :: tt) = true :=
    digits_ok_all hex_digit_val (by decide) _ (by simp) hd
  have hval := digits_value_foldl 16 hex_digit_val (by decide) (th :: tt) hd 0
  simp only [int_of_chars_base0, hstrip, hsign]
  simp [parse_prefixed_group, hthn, parse_digit_group, hok, hval, hex_chars_val]

/-- Claim C4: manufacturer extraction parses a non-empty decimal or
0x-prefixed hex source key to its integer company id (both 0x004C and 76
resolve to 76) and looks that id up in the manufacturer data; an empty
key, an unparseable key, or a missing company id each yield not found. -/
theorem C4_manufacturer_key (si : ServiceInfo) (s : String) :
    (∀ k : Int, s ≠ "" → int_of_chars_base0 s.data = some k →
      extract_rule_bytes si (manufacturer_rule (.str s))
        = .ok (find_val si.manufacturer_data k)) ∧
    (∀ cs : List Char, cs ≠ [] → (∀ c ∈ cs, (dec_digit c).isSome) →
      (∀ c ∈ cs, cs.head? = some '0' → c = '0') →
      int_of_chars_base0 cs = some ((dec_chars_val cs : Nat) : Int)) ∧
    (∀ t : List Char, t ≠ [] → (∀ c ∈ t, (hex_digit_val c).isSome) →
      int_of_chars_base0 ('0' :: 'x' :: t)
        = some ((hex_chars_val t : Nat) : Int)) ∧
    int_of_chars_base0 "0x004C".data = some 76 ∧
    int_of_chars_base0 "76".data = some 76 ∧
    extract_rule_bytes si (manufacturer_rule (.str "")) = .ok Option.none ∧
    (s ≠ "" → int_of_chars_base0 s.data = Option.none →
      extract_rule_bytes si (manufacturer_rule (.str s)) = .ok Option.none) := by
  refine ⟨?_, base0_dec_literal, base0_hex_literal, by decide, by decide, ?_, ?_⟩
  · intro k hs hk
    simp [extract_rule_bytes, manufacturer_rule, pyEqStr, pyTruthy, parse_int_py,
      hs, hk]
  · simp [extract_rule_bytes, manufacturer_rule, pyEqStr, pyTruthy]
  · intro hs hk
    simp [extract_rule_bytes, manufacturer_rule, pyEqStr, pyTruthy, parse_int_py,
      hs, hk]

/-- Witness for C4 at concrete inputs. -/
theorem C4_manufacturer_key_witness :
    extract_rule_bytes { manufacturer_data := [(76, [9])] }
        (manufacturer_rule (.str "0x004C"))
      = .ok (find_val [(76, [9])] 76) ∧
    extract_rule_bytes { manufacturer_data := [(76, [9])] }
        (manufacturer_rule (.str "76"))
      = .ok (find_val [(76, [9])] 76) :=
  ⟨(C4_manufacturer_key { manufacturer_data := [(76, [9])] } "0x004C").1 76
      (by decide) (by decide),
   (C4_manufacturer_key { manufacturer_data := [(76, [9])] } "76").1 76
      (by decide) (by decide)⟩

/-! ### Exception safety of the decode path -/

/-- Snapshot for the C3 counterexample: raw advertisement bytes present. -/
def c3_info : ServiceInfo :=
  { advertisement := some { data := some [1, 2, 3] } }

/-- Rule for the C3 counterexample: the offset field holds the string x,
an ill-typed but representable configuration value. -/
def c3_rule : Rule :=
  { source_type := some (.str "raw"), offset := some (.str "x"),
    length := some (.int 1) }

/-- Counterexample to claim C3 as stated: with raw bytes present and an
offset field holding the string x, `_parse_rule_value` raises ValueError
from `int(...)` instead of returning a not-found result. -/
theorem C3_counterexample :
    parse_rule_value c3_info c3_rule = .error .valueError := by rfl

/-- A Python value `int()` / `float()` accept without raising, without
going through string parsing. -/
def numeric_val : PyVal → Prop
  | .bool _ => True
  | .int _ => True
  | .float _ => True
  | _ => False

/-- An optional rule field that is absent or numeric. -/
def numeric_field (f : Option PyVal) : Prop :=
  match f with
  | Option.none => True
  | some v => numeric_val v

/-- A source-key field that cannot make extraction raise: absent, `None`,
or a string. -/
def key_field_ok (f : Option PyVal) : Prop :=
  match f with
  | Option.none => True
  | some PyVal.none => True
  | some (.str _) => True
  | some _ => False

/-- Numeric-or-absent offset and length fields convert without raising. -/
theorem numeric_to_int (f : Option PyVal) (h : numeric_field f) :
    ∃ n, pyToInt (f.getD (.int 0)) = .ok n := by
  cases f with
  | none => exact ⟨0, rfl⟩
  | some v =>
    cases v with
    | bool b => exact ⟨_, rfl⟩
    | int n => exact ⟨n, rfl⟩
    | float q => exact ⟨_, rfl⟩
    | none => exact absurd h (by simp [numeric_field, numeric_val])
    | str s => exact absurd h (by simp [numeric_field, numeric_val])

/-- A numeric-or-absent scale field converts without raising. -/
theorem numeric_to_float (f : Option PyVal) (h : numeric_field f) :
    ∃ q, pyToFloat (f.getD (.float 1)) = .ok q := by
  cases f with
  | none => exact ⟨1, rfl⟩
  | some v =>
    cases v with
    | bool b => exact ⟨_, rfl⟩
    | int n => exact ⟨_, rfl⟩
    | float q => exact ⟨q, rfl⟩
    | none => exact absurd h (by simp [numeric_field, numeric_val])
    | str s => exact absurd h (by simp [numeric_field, numeric_val])

/-- Extraction never raises when the source key is absent, `None`, or a
string. -/
theorem extract_no_raise (si : ServiceInfo) (rule : Rule)
    (hk : key_field_ok rule.source_key) :
    ∃ d, extract_rule_bytes si rule = .ok d := by
  have hsk2 : (∃ s, rule.source_key.getD .none = .str s)
      ∨ rule.source_key.getD .none = .none := by
    cases h : rule.source_key with
    | none => exact Or.inr (by simp [h])
    | some v =>
      rw [h] at hk
      cases v with
      | str s => exact Or.inl ⟨s, by simp⟩
      | none => exact Or.inr (by simp)
      | bool b => exact absurd hk (by simp [key_field_ok])
      | int n => exact absurd hk (by simp [key_field_ok])
      | float q => exact absurd hk (by simp [key_field_ok])
  unfold extract_rule_bytes
  rcases hsk2 with ⟨s, hs⟩ | hs <;> rw [hs]
  · by_cases h1 : pyEqStr (rule.source_type.getD .none) "manufacturer_data"
    · rw [if_pos h1]
      by_cases h2 : pyTruthy (.str s)
      · rw [if_neg (by simp [h2])]
        cases hp : int_of_chars_base0 s.data with
        | none => exact ⟨Option.none, by simp [parse_int_py, hp]⟩
        | some k =>
          exact ⟨find_val si.manufacturer_data k, by simp [parse_int_py, hp]⟩
      · exact ⟨_, by rw [if_pos (by simp [h2])]⟩
    · rw [if_neg h1]
      by_cases h3 : pyEqStr (rule.source_type.getD .none) "service_data"
      · rw [if_pos h3]
        by_cases h2 : pyTruthy (.str s)
        · rw [if_neg (by simp [h2])]
          by_cases h4 : (find_val si.service_data s).isSome
          · exact ⟨find_val si.service_data s, by simp [h4]⟩
          · exact ⟨find_val si.service_data (py_lower s), by simp [h4]⟩
        · exact ⟨_, by rw [if_pos (by simp [h2])]⟩
      · rw [if_neg h3]
        by_cases h5 : pyEqStr (rule.source_type.getD .none) "raw"
        · exact ⟨_, by rw [if_pos h5]⟩
        · exact ⟨_, by rw [if_neg h5]⟩
  · by_cases h1 : pyEqStr (rule.source_type.getD .none) "manufacturer_data"
    · exact ⟨_, by rw [if_pos h1, if_pos (by simp [pyTruthy])]⟩
    · rw [if_neg h1]
      by_cases h3 : pyEqStr (rule.source_type.getD .none) "service_data"
      · exact ⟨_, by rw [if_pos h3, if_pos (by simp [pyTruthy])]⟩
      · rw [if_neg h3]
        by_cases h5 : pyEqStr (rule.source_type.getD .none) "raw"
        · exact ⟨_, by rw [if_pos h5]⟩
        · exact ⟨_, by rw [if_neg h5]⟩

/-- The decode stage never raises when the offset, length and scale
conversions succeed. -/
theorem decode_no_raise (rule : Rule) (d : Option (List Nat))
    (ho : ∃ n, pyToInt (rule.offset.getD (.int 0)) = .ok n)
    (hl : ∃ m, pyToInt (rule.length.getD (.int 0)) = .ok m)
    (hs : ∃ q, pyToFloat (rule.scale.getD (.float 1)) = .ok q) :
    ∃ r, decode_rule_bytes d rule = .ok r := by
  obtain ⟨n, hn⟩ := ho
  obtain ⟨m, hm⟩ := hl
  obtain ⟨q, hq⟩ := hs
  cases d with
  | none => exact ⟨_, rfl⟩
  | some bs =>
    by_cases hbs : bs = []
    · exact ⟨(Option.none, Option.none), by simp [decode_rule_bytes, hbs]⟩
    · simp only [decode_rule_bytes, hn, hm, if_neg hbs]
      by_cases h1 : (m ≤ 0 ∨ n < 0)
      · exact ⟨_, by rw [if_pos h1]⟩
      · rw [if_neg h1]
        by_cases h2 : (bs.length : Int) < n + m
        · exact ⟨_, by rw [if_pos h2]⟩
        · rw [if_neg h2]
          by_cases h3 : (bs.drop n.toNat).take m.toNat = []
          · exact ⟨_, by rw [if_pos h3]⟩
          · rw [if_neg h3, hq]
            exact ⟨_, rfl⟩

/-- Claim C3 (amended): for every snapshot and every rule whose offset,
length and scale fields are absent or numeric and whose source key is
absent, `None`, or a string, `_parse_rule_value` never raises — every
failure path yields the not-found result.  As originally stated the
claim is false: an ill-typed field raises (see the counterexample). -/
theorem C3_no_raise_well_typed (si : ServiceInfo) (rule : Rule)
    (ho : numeric_field rule.offset) (hl : numeric_field rule.length)
    (hs : numeric_field rule.scale) (hk : key_field_ok rule.source_key) :
    ∃ r, parse_rule_value si rule = .ok r := by
  obtain ⟨d, hd⟩ := extract_no_raise si rule hk
  obtain ⟨r, hr⟩ := decode_no_raise rule d (numeric_to_int _ ho)
    (numeric_to_int _ hl) (numeric_to_float _ hs)
  exact ⟨r, by simp [parse_rule_value, hd, hr]⟩

/-- Witness for C3 (amended) at a concrete input. -/
theorem C3_no_raise_well_typed_witness :
    ∃ r, parse_rule_value {} { source_type := some (.str "raw") } = .ok r :=
  C3_no_raise_well_typed {} { source_type := some (.str "raw") }
    (by trivial) (by trivial) (by trivial) (by trivial)
